import Mathlib

/-!
Verification of the game scheduling and reservation lifecycle of the
scheduletf Discord bot, as a shallow embedding of the Rust source.

Conventions of the embedding:
* timestamps (`OffsetDateTime`) are integers counting seconds, durations are
  integers in seconds; calendar dates are integers counting days;
* machine integers (`i32`, `i64`, `u32`) are embedded as `Int`/`Nat` — no
  arithmetic in the verified code ever approaches their bounds;
* `Option`/`Result` fallible code is embedded with `Option`/`Except`;
* external network calls (the na.serveme.tf booking service and the RGL data
  service) are embedded as explicit function parameters holding the response
  the call produced, so the call-free logic around them stays executable.
-/

namespace SchedTF

/-- Embeds `ConnectInfo` from `src/entities/mod.rs`. -/
structure ConnectInfo where
  ip_and_port : String
  password : String
deriving DecidableEq


/-- Embeds `GameFormat` from `src/entities/mod.rs`. -/
inductive GameFormat
  | Sixes
  | Highlander
deriving DecidableEq


/-- Embeds `Map` (a newtype over `String`) from `src/entities/mod.rs`. -/
abbrev GameMap := String


/-- Embeds `MapList` from `src/entities/mod.rs`. -/
abbrev MapList := List GameMap


/-- Embeds the variants of `BotError` (`src/error.rs`) the claims need. -/
inductive BotError
  | InvalidGameDetails
  | NoServemeServers
  | GameNotHosted
  | TimeSlotTaken
  | GameNotFound
  | NoServemeApiKey
deriving DecidableEq


/-- Embeds `game::Model` from `src/entities/game.rs`: the raw persisted row
with its nullable columns. -/
structure Model where
  guild_id : Int
  timestamp : Int
  reservation_id : Option Int
  connect_info : Option ConnectInfo
  opponent_user_id : Option Int
  game_format : Option GameFormat
  maps : Option MapList
  rgl_match_id : Option Int
deriving DecidableEq


/-- Embeds `GameServer` from `src/entities/game.rs`. -/
inductive GameServer
  | Hosted (reservation_id : Int)
  | Joined (connect_info : ConnectInfo)
  | Undecided
deriving DecidableEq


/-- Embeds `GameServer::is_hosted`. -/
def GameServer.is_hosted : GameServer → Bool
  | .Hosted _ => true
  | _ => false


/-- Embeds `GameServer::is_joined`. -/
def GameServer.is_joined : GameServer → Bool
  | .Joined _ => true
  | _ => false


/-- Embeds `GameServer::reservation_id`. -/
def GameServer.reservation_id : GameServer → Except BotError Int
  | .Hosted r => .ok r
  | _ => .error .GameNotHosted


/-- Embeds `GameKind` from `src/entities/game.rs`. -/
inductive GameKind
  | Scrim
  | Match
deriving DecidableEq


/-- Embeds `GameKind::prefix` (the password namespace tag). -/
def GameKind.tag : GameKind → String
  | .Scrim => "scrim"
  | .Match => "match"


/-- Embeds `Scrim` from `src/entities/game.rs`. -/
structure Scrim where
  opponent_user_id : Int
  game_format : GameFormat
  maps : MapList
deriving DecidableEq


/-- Embeds `Match` from `src/entities/game.rs`. -/
structure MatchDetails where
  rgl_match_id : Int
deriving DecidableEq


/-- Embeds `ScrimOrMatch` from `src/entities/game.rs`. -/
inductive ScrimOrMatch
  | Scrim (scrim : Scrim)
  | Match (match_ : MatchDetails)
deriving DecidableEq


/-- Embeds the pure members of the `GameDetails` trait from
`src/entities/game.rs` (`from_parts`, `into_parts`, `kind`). -/
class GameDetails (D : Type) where
  from_parts : Option Int → Option GameFormat → Option MapList → Option Int → Option D
  into_parts : D → Option Int × Option GameFormat × Option MapList × Option Int
  kind : D → GameKind


/-- Embeds `impl GameDetails for ScrimOrMatch`. -/
instance : GameDetails ScrimOrMatch where
  from_parts o f m r :=
    match o, f, m, r with
    | some opponent_user_id, some game_format, some maps, none =>
        some (.Scrim ⟨opponent_user_id, game_format, maps⟩)
    | none, none, none, some rgl_match_id => some (.Match ⟨rgl_match_id⟩)
    | _, _, _, _ => none
  into_parts d :=
    match d with
    | .Scrim scrim => (some scrim.opponent_user_id, some scrim.game_format, some scrim.maps, none)
    | .Match match_ => (none, none, none, some match_.rgl_match_id)
  kind d :=
    match d with
    | .Scrim _ => .Scrim
    | .Match _ => .Match


/-- Embeds `impl GameDetails for Scrim`. -/
instance : GameDetails Scrim where
  from_parts o f m r :=
    match o, f, m, r with
    | some opponent_user_id, some game_format, some maps, none =>
        some ⟨opponent_user_id, game_format, maps⟩
    | _, _, _, _ => none
  into_parts scrim :=
    (some scrim.opponent_user_id, some scrim.game_format, some scrim.maps, none)
  kind _ := .Scrim


/-- Embeds `impl GameDetails for Match`. -/
instance : GameDetails MatchDetails where
  from_parts o f m r :=
    match o, f, m, r with
    | none, none, none, some rgl_match_id => some ⟨rgl_match_id⟩
    | _, _, _, _ => none
  into_parts match_ := (none, none, none, some match_.rgl_match_id)
  kind _ := .Match


/-- Embeds `Game<D>` from `src/entities/game.rs`. -/
structure Game (D : Type) where
  guild_id : Int
  timestamp : Int
  server : GameServer
  details : D
deriving DecidableEq


/-- Embeds `impl TryFrom<Model> for Game<D>` from `src/entities/game.rs`. -/
def Game.try_from [GameDetails D] (model : Model) : Except BotError (Game D) :=
  match model.reservation_id, model.connect_info with
  | some reservation_id, none => decode_rest model (.Hosted reservation_id)
  | none, some connect_info => decode_rest model (.Joined connect_info)
  | none, none => decode_rest model .Undecided
  | some _, some _ => .error .InvalidGameDetails
where
  decode_rest (model : Model) (server : GameServer) : Except BotError (Game D) :=
    match GameDetails.from_parts model.opponent_user_id model.game_format
        model.maps model.rgl_match_id with
    | some details => .ok ⟨model.guild_id, model.timestamp, server, details⟩
    | none => .error .InvalidGameDetails


/-- Embeds sea-orm's `ActiveValue`. -/
inductive ActiveValue (α : Type)
  | set (v : α)
  | unchanged (v : α)
  | notSet
deriving DecidableEq


/-- Whether a column is marked for update. -/
def ActiveValue.isSet : ActiveValue α → Bool
  | .set _ => true
  | _ => false


/-- Embeds sea-orm's `ActiveValue::reset`: an `Unchanged` value becomes `Set`,
making the column part of the next UPDATE. -/
def ActiveValue.reset : ActiveValue α → ActiveValue α
  | .unchanged v => .set v
  | v => v


/-- The stored value of a column, falling back to a default when not set. -/
def ActiveValue.valueOr (d : α) : ActiveValue α → α
  | .set v => v
  | .unchanged v => v
  | .notSet => d


/-- UPDATE semantics of a column: only a `Set` value overwrites the row. -/
def ActiveValue.applied (old : α) : ActiveValue α → α
  | .set v => v
  | _ => old


/-- Embeds `game::ActiveModel` from `src/entities/game.rs`. -/
structure GameActiveModel where
  guild_id : ActiveValue Int
  timestamp : ActiveValue Int
  reservation_id : ActiveValue (Option Int)
  connect_info : ActiveValue (Option ConnectInfo)
  opponent_user_id : ActiveValue (Option Int)
  game_format : ActiveValue (Option GameFormat)
  maps : ActiveValue (Option MapList)
  rgl_match_id : ActiveValue (Option Int)
deriving DecidableEq


/-- Embeds `game::Column` from `src/entities/game.rs` (derived by sea-orm). -/
inductive GameColumn
  | GuildId
  | Timestamp
  | ReservationId
  | ConnectInfo
  | OpponentUserId
  | GameFormatCol
  | Maps
  | RglMatchId
deriving DecidableEq


/-- Embeds `ActiveModel::reset(column)` on `game::ActiveModel`. -/
def GameActiveModel.reset (am : GameActiveModel) : GameColumn → GameActiveModel
  | .GuildId => { am with guild_id := am.guild_id.reset }
  | .Timestamp => { am with timestamp := am.timestamp.reset }
  | .ReservationId => { am with reservation_id := am.reservation_id.reset }
  | .ConnectInfo => { am with connect_info := am.connect_info.reset }
  | .OpponentUserId => { am with opponent_user_id := am.opponent_user_id.reset }
  | .GameFormatCol => { am with game_format := am.game_format.reset }
  | .Maps => { am with maps := am.maps.reset }
  | .RglMatchId => { am with rgl_match_id := am.rgl_match_id.reset }


/-- Embeds the `match self.server` block of
`impl IntoActiveModel<ActiveModel> for Game<D>`: the pair of values written to
the `reservation_id` and `connect_info` columns. -/
def GameServer.into_cols : GameServer → Option Int × Option ConnectInfo
  | .Hosted reservation_id => (some reservation_id, none)
  | .Joined connect_info => (none, some connect_info)
  | .Undecided => (none, none)


/-- Embeds `impl IntoActiveModel<ActiveModel> for Game<D>` from
`src/entities/game.rs`: every column receives an `Unchanged` value. -/
def Game.into_active_model [GameDetails D] (g : Game D) : GameActiveModel :=
  let cols := g.server.into_cols
  let parts := GameDetails.into_parts g.details
  { guild_id := .unchanged g.guild_id
    timestamp := .unchanged g.timestamp
    reservation_id := .unchanged cols.1
    connect_info := .unchanged cols.2
    opponent_user_id := .unchanged parts.1
    game_format := .unchanged parts.2.1
    maps := .unchanged parts.2.2.1
    rgl_match_id := .unchanged parts.2.2.2 }


/-- The full row held by an active model, falling back to an existing row for
columns that carry no value. -/
def GameActiveModel.toRow (am : GameActiveModel) (r : Model) : Model where
  guild_id := am.guild_id.valueOr r.guild_id
  timestamp := am.timestamp.valueOr r.timestamp
  reservation_id := am.reservation_id.valueOr r.reservation_id
  connect_info := am.connect_info.valueOr r.connect_info
  opponent_user_id := am.opponent_user_id.valueOr r.opponent_user_id
  game_format := am.game_format.valueOr r.game_format
  maps := am.maps.valueOr r.maps
  rgl_match_id := am.rgl_match_id.valueOr r.rgl_match_id


/-- UPDATE semantics of an active model against the row it targets: only
columns marked `Set` are overwritten. -/
def GameActiveModel.applyTo (am : GameActiveModel) (r : Model) : Model where
  guild_id := am.guild_id.applied r.guild_id
  timestamp := am.timestamp.applied r.timestamp
  reservation_id := am.reservation_id.applied r.reservation_id
  connect_info := am.connect_info.applied r.connect_info
  opponent_user_id := am.opponent_user_id.applied r.opponent_user_id
  game_format := am.game_format.applied r.game_format
  maps := am.maps.applied r.maps
  rgl_match_id := am.rgl_match_id.applied r.rgl_match_id


/-- Transcribes claim C1's case enumeration of the decode of a persisted row:
each combination of present/absent nullable columns and the `Game` it must
produce or the error it must fail with. Stated from the claim's words, to be
compared against `Game.try_from`, which embeds the source. -/
def decodeSpec (m : Model) : Except BotError (Game ScrimOrMatch) :=
  match m.reservation_id, m.connect_info, m.opponent_user_id, m.game_format,
      m.maps, m.rgl_match_id with
  | some r, none, some o, some f, some mp, none =>
      .ok ⟨m.guild_id, m.timestamp, .Hosted r, .Scrim ⟨o, f, mp⟩⟩
  | none, some c, some o, some f, some mp, none =>
      .ok ⟨m.guild_id, m.timestamp, .Joined c, .Scrim ⟨o, f, mp⟩⟩
  | none, none, some o, some f, some mp, none =>
      .ok ⟨m.guild_id, m.timestamp, .Undecided, .Scrim ⟨o, f, mp⟩⟩
  | some r, none, none, none, none, some i =>
      .ok ⟨m.guild_id, m.timestamp, .Hosted r, .Match ⟨i⟩⟩
  | none, some c, none, none, none, some i =>
      .ok ⟨m.guild_id, m.timestamp, .Joined c, .Match ⟨i⟩⟩
  | none, none, none, none, none, some i =>
      .ok ⟨m.guild_id, m.timestamp, .Undecided, .Match ⟨i⟩⟩
  | _, _, _, _, _, _ => .error .InvalidGameDetails


/-- Embeds `ServerConfig` from `src/entities/mod.rs`. -/
structure ServerConfig where
  name : String
  id : Nat
deriving DecidableEq


/-- Embeds the `ServerConfig` constants from `src/entities/mod.rs`. -/
def ServerConfig.HL_STOPWATCH : ServerConfig := ⟨"rgl_HL_stopwatch", 55⟩


def ServerConfig.MATCH_6S_5CP : ServerConfig := ⟨"rgl_6s_5cp_match_pro", 109⟩


def ServerConfig.MATCH_6S_KOTH : ServerConfig := ⟨"rgl_6s_koth_pro", 110⟩


def ServerConfig.MATCH_HL_KOTH : ServerConfig := ⟨"rgl_HL_koth", 53⟩


def ServerConfig.SCRIM_6S_5CP : ServerConfig := ⟨"rgl_6s_5cp_scrim", 69⟩


def ServerConfig.SCRIM_6S_KOTH : ServerConfig := ⟨"rgl_6s_koth_scrim", 113⟩


def ServerConfig.SCRIM_HL_KOTH : ServerConfig := ⟨"rgl_HL_koth_bo5", 54⟩


/-- Embeds Rust's `str::starts_with` on the character sequence of a string
(equivalent for valid UTF-8, and evaluable by the kernel). -/
def strStartsWith (s p : String) : Bool :=
  p.data.isPrefixOf s.data


/-- Whether `needle` occurs as a contiguous run inside the second list. -/
def charsContains (needle : List Char) : List Char → Bool
  | [] => needle.isPrefixOf ([] : List Char)
  | c :: rest => needle.isPrefixOf (c :: rest) || charsContains needle rest


/-- Embeds Rust's `str::contains` (substring test) on character sequences. -/
def strContains (hay needle : String) : Bool :=
  charsContains needle.data hay.data


/-- Embeds Rust's `str::to_lowercase`/`to_ascii_lowercase` on character
sequences (the strings involved are ASCII map names and aliases). -/
def strToLower (s : String) : String :=
  ⟨s.data.map Char.toLower⟩


/-- Embeds `Map::config` from `src/entities/mod.rs`. -/
def GameMap.config (m : GameMap) (kind : GameKind) (format : GameFormat) :
    Option ServerConfig :=
  match kind, format with
  | .Scrim, .Sixes =>
      if strStartsWith m "cp_" then some .SCRIM_6S_5CP
      else if strStartsWith m "koth_" then some .SCRIM_6S_KOTH
      else none
  | .Scrim, .Highlander =>
      if strStartsWith m "pl_" || strStartsWith m "cp_" then some .HL_STOPWATCH
      else if strStartsWith m "koth_" then some .SCRIM_HL_KOTH
      else none
  | .Match, .Sixes =>
      if strStartsWith m "cp_" then some .MATCH_6S_5CP
      else if strStartsWith m "koth_" then some .MATCH_6S_KOTH
      else none
  | .Match, .Highlander =>
      if strStartsWith m "pl_" || strStartsWith m "cp_" then some .HL_STOPWATCH
      else if strStartsWith m "koth_" then some .MATCH_HL_KOTH
      else none


/-- Embeds `MapList::server_config` from `src/entities/mod.rs`: the first map
paired with its server-config id, or `(None, None)` when there is no first map
or it has no config for this kind and format. -/
def MapList.server_config (maps : MapList) (kind : GameKind)
    (format : GameFormat) : Option GameMap × Option Nat :=
  match maps.head? with
  | none => (none, none)
  | some m =>
      match m.config kind format with
      | some cfg => (some m, some cfg.id)
      | none => (none, none)


/-- Embeds `Server` from `src/serveme.rs`. -/
structure Server where
  id : Nat
  ip : String
  ip_and_port : String
deriving DecidableEq


/-- Embeds `ReservationResponse` from `src/serveme.rs` (the fields the
reservation lifecycle reads). -/
structure ReservationResponse where
  id : Int
  starts_at : Int
  ends_at : Int
deriving DecidableEq


/-- Embeds `CreateReservationRequest` from `src/serveme.rs`. -/
structure CreateReservationRequest where
  starts_at : Int
  ends_at : Int
  server_id : Nat
  password : String
  rcon : String
  first_map : Option GameMap
  server_config_id : Option Nat
  enable_plugins : Bool
  enable_demos_tf : Bool
deriving DecidableEq


/-- Embeds `EditReservationRequest` from `src/serveme.rs`. -/
structure EditReservationRequest where
  starts_at : Option Int
  ends_at : Option Int
  first_map : Option GameMap
  server_config_id : Option Nat
deriving DecidableEq


/-- Embeds `EditReservationRequest::default()`: every field absent. -/
def EditReservationRequest.default : EditReservationRequest :=
  ⟨none, none, none, none⟩


/-- Embeds `Game::start_end_times` from `src/entities/game.rs`: the booking
window sent to the reservation service. Seconds; `Duration::HOUR = 3600`,
`Duration::minutes(15) = 900`. -/
def Game.start_end_times [GameDetails D] (g : Game D) : Int × Int :=
  let duration : Int :=
    match GameDetails.kind g.details with
    | GameKind.Scrim => 3600
    | GameKind.Match => 2 * 3600
  (g.timestamp - 15 * 60, g.timestamp + duration + 15 * 60)


/-- Embeds the server-selection predicate of `Game::create_reservation`: the
address begins with a preferred region ("chi" or "ks"). -/
def serverPreferred (s : Server) : Bool :=
  strStartsWith s.ip_and_port "chi" || strStartsWith s.ip_and_port "ks"


/-- Embeds the `CreateReservationRequest` built by `Game::create_reservation`.
`resolvedMaps`/`resolvedFormat` are the values `self.details.maps()` and
`self.details.game_format()` resolved to (for a scrim these are the stored
fields; for a match they come from the RGL service); `pwSuffix`/`rconSuffix`
are the sampled random alphanumeric strings. -/
def Game.create_request [GameDetails D] (g : Game D) (resolvedMaps : MapList)
    (resolvedFormat : GameFormat) (srv : Server) (pwSuffix rconSuffix : String) :
    CreateReservationRequest :=
  let times := g.start_end_times
  let kind := GameDetails.kind g.details
  let cfg := resolvedMaps.server_config kind resolvedFormat
  { starts_at := times.1
    ends_at := times.2
    server_id := srv.id
    password := kind.tag ++ "." ++ pwSuffix
    rcon := kind.tag ++ ".rcon." ++ rconSuffix
    first_map := cfg.1
    server_config_id := cfg.2
    enable_plugins := true
    enable_demos_tf := true }


/-- Embeds `Game::create_reservation` from `src/entities/game.rs`. `servers`
is the `FindServersRequest` response for the booking window and
`create` is the booking service's response to the creation request; on
success the game's server assignment becomes `Hosted` of the new id. -/
def Game.create_reservation [GameDetails D] (g : Game D) (resolvedMaps : MapList)
    (resolvedFormat : GameFormat) (servers : List Server)
    (pwSuffix rconSuffix : String)
    (create : CreateReservationRequest → ReservationResponse) :
    Except BotError (Game D × ReservationResponse) :=
  match servers.find? serverPreferred with
  | none => .error .NoServemeServers
  | some srv =>
      let req := g.create_request resolvedMaps resolvedFormat srv pwSuffix rconSuffix
      let reservation := create req
      .ok ({ g with server := .Hosted reservation.id }, reservation)


/-- Embeds the `EditReservationRequest` built by `Game::edit_reservation`
against the fetched reservation. -/
def Game.edit_request [GameDetails D] (g : Game D) (resolvedMaps : MapList)
    (resolvedFormat : GameFormat) (reservation : ReservationResponse) :
    EditReservationRequest :=
  let times := g.start_end_times
  let cfg :=
    if times.1 ≤ reservation.starts_at then
      resolvedMaps.server_config (GameDetails.kind g.details) resolvedFormat
    else (none, none)
  { starts_at := if times.1 < reservation.starts_at then some times.1 else none
    ends_at := if times.2 > reservation.ends_at then some times.2 else none
    first_map := cfg.1
    server_config_id := cfg.2 }


/-- Embeds `Game::edit_reservation` from `src/entities/game.rs`. `fetched` is
the reservation returned by `get_reservation` and `send` the service's
response to the edit request; an all-absent request is never sent and the
fetched reservation is returned unchanged. -/
def Game.edit_reservation [GameDetails D] (g : Game D) (resolvedMaps : MapList)
    (resolvedFormat : GameFormat) (fetched : ReservationResponse)
    (send : EditReservationRequest → ReservationResponse) :
    Except BotError ReservationResponse :=
  match g.server.reservation_id with
  | .error e => .error e
  | .ok _ =>
      let req := g.edit_request resolvedMaps resolvedFormat fetched
      if req = EditReservationRequest.default then .ok fetched
      else .ok (send req)


/-- Embeds `team_guild::Model::ensure_time_open` from
`src/entities/team_guild.rs`: a primary-key lookup of `(guild, timestamp)`
against the game table; the table is returned unmodified on success (the
operation only SELECTs). -/
def ensure_time_open (guild_id : Int) (db : List Model) (date_time : Int) :
    Except BotError (List Model) :=
  if db.any (fun r => r.guild_id == guild_id && r.timestamp == date_time) then
    .error .TimeSlotTaken
  else .ok db


/-- Embeds `EditReservationIdCommand::run` from `src/commands/scrim/edit.rs`
(the column-level effect: any reservation edit to a hosted game also goes
through `edit_reservation`, which does not change the game's fields). -/
def EditReservationIdCommand.run (reservation_id : Option Int)
    (scrim : Game Scrim) : GameActiveModel :=
  let server :=
    match reservation_id with
    | some r => GameServer.Hosted r
    | none => if scrim.server.is_hosted then .Undecided else scrim.server
  let active_model := ({ scrim with server := server } : Game Scrim).into_active_model
  (active_model.reset .ReservationId).reset .ConnectInfo


/-- Embeds `EditConnectInfoCommand::run` from `src/commands/scrim/edit.rs`. -/
def EditConnectInfoCommand.run (connect_info : Option ConnectInfo)
    (scrim : Game Scrim) : GameActiveModel :=
  let server :=
    match connect_info with
    | some c => GameServer.Joined c
    | none => if scrim.server.is_joined then .Undecided else scrim.server
  let active_model := ({ scrim with server := server } : Game Scrim).into_active_model
  (active_model.reset .ReservationId).reset .ConnectInfo


/-- One server-assignment edit operation of the scrim edit command group. -/
inductive ServerEdit
  | reservation (r : Option Int)
  | connect (c : Option ConnectInfo)
deriving DecidableEq


/-- Running one server-assignment edit against a persisted row: the row is
decoded into a `Game<Scrim>` (as `EditCommand::run` does via `get_game`), the
command produces an active model, and its UPDATE is applied to the row. -/
def applyServerEdit (row : Model) (e : ServerEdit) : Except BotError Model :=
  match (Game.try_from row : Except BotError (Game Scrim)) with
  | .error err => .error err
  | .ok scrim =>
      match e with
      | .reservation r => .ok ((EditReservationIdCommand.run r scrim).applyTo row)
      | .connect c => .ok ((EditConnectInfoCommand.run c scrim).applyTo row)


/-- A sequence of server-assignment edit operations applied left to right. -/
def applyServerEdits (row : Model) (es : List ServerEdit) : Except BotError Model :=
  es.foldlM applyServerEdit row


/-- The mutual-exclusion invariant of `ServerAssignment` on a row. -/
def mutexRow (r : Model) : Prop :=
  r.reservation_id = none ∨ r.connect_info = none


/-- Weekdays, as in the `time` crate. -/
inductive Weekday
  | sunday
  | monday
  | tuesday
  | wednesday
  | thursday
  | friday
  | saturday
deriving DecidableEq


/-- The lowercase weekday name the alias macro in `src/autocomplete.rs`
produces (`stringify!([<$weekday:lower>])`). -/
def Weekday.name : Weekday → String
  | .sunday => "sunday"
  | .monday => "monday"
  | .tuesday => "tuesday"
  | .wednesday => "wednesday"
  | .thursday => "thursday"
  | .friday => "friday"
  | .saturday => "saturday"


/-- Calendar dates are day numbers with day 0 = 1970-01-01, a Thursday; this
embeds `Date::weekday` of the `time` crate. -/
def weekdayOf (d : Int) : Weekday :=
  match (d % 7).toNat with
  | 0 => .thursday
  | 1 => .friday
  | 2 => .saturday
  | 3 => .sunday
  | 4 => .monday
  | 5 => .tuesday
  | _ => .wednesday


/-- Embeds `day_aliases` from `src/autocomplete.rs`: the textual aliases of a
candidate date given the current date (`now_et().date()`); the date after the
current one is `now_date.next_day()`. -/
def day_aliases (now_date date : Int) : List String :=
  let w := (weekdayOf date).name
  match date == now_date, date == now_date + 1 with
  | true, false => [w, "today", "tdy"]
  | false, true => [w, "tomorrow", "tmrw"]
  | false, false => [w]
  | true, true => []


/-- Embeds `time_aliases` from `src/autocomplete.rs`: the textual renderings
of an hour:minute clock time; the macro only produces aliases for whole and
half hours. -/
def time_aliases (hour24 minute : Nat) : List String :=
  let hour : Nat := if hour24 = 0 then 12 else if hour24 > 12 then hour24 - 12 else hour24
  let h := toString hour
  if 1 ≤ hour ∧ hour ≤ 12 then
    match (decide (hour24 ≥ 12) : Bool), minute with
    | false, 0 =>
        [h ++ ":00 am", h ++ ":00am", h ++ ":00 a.m.", h ++ ":00a.m.",
          h ++ "00 am", h ++ "00am", h ++ "00 a.m.", h ++ "00a.m.",
          h ++ " am", h ++ "am", h ++ " a.m.", h ++ "a.m."]
    | false, 30 =>
        [h ++ ":30 am", h ++ ":30am", h ++ ":30 a.m.", h ++ ":30a.m.",
          h ++ "30 am", h ++ "30am", h ++ "30 a.m.", h ++ "30a.m."]
    | true, 0 =>
        [h ++ ":00 pm", h ++ ":00pm", h ++ ":00 p.m.", h ++ ":00p.m.",
          h ++ "00 pm", h ++ "00pm", h ++ "00 p.m.", h ++ "00p.m.",
          h ++ " pm", h ++ "pm", h ++ " p.m.", h ++ "p.m."]
    | true, 30 =>
        [h ++ ":30 pm", h ++ ":30pm", h ++ ":30 p.m.", h ++ ":30p.m.",
          h ++ "30 pm", h ++ "30pm", h ++ "30 p.m.", h ++ "30p.m."]
    | _, _ => []
  else []


/-- A wall-clock datetime in the team's timezone, split the way
`autocomplete_reservations` consumes it: `.date()` as a day number and
`.time()` as hour/minute. -/
structure DateTimeET where
  day : Int
  hour : Nat
  minute : Nat
deriving DecidableEq


/-- Inserting one `(reservation, datetime)` pair into the key-sorted group
list, as `BTreeMap::entry(..).or_default().push(..)` does. -/
def insertGrouped : List (Int × List DateTimeET) → Int → DateTimeET →
    List (Int × List DateTimeET)
  | [], r, t => [(r, [t])]
  | (r', ts) :: rest, r, t =>
      if r = r' then (r', ts ++ [t]) :: rest
      else if r < r' then (r, [t]) :: (r', ts) :: rest
      else (r', ts) :: insertGrouped rest r t


/-- Embeds the `BTreeMap` grouping loop of
`team_guild::Model::autocomplete_reservations`: a team's games grouped by
their reservation id, in ascending id order, preserving member order. -/
def groupByRid (data : List (Int × DateTimeET)) : List (Int × List DateTimeET) :=
  data.foldl (fun acc rt => insertGrouped acc rt.1 rt.2) []


/-- Embeds the filtering of `team_guild::Model::autocomplete_reservations`
from `src/entities/team_guild.rs`: `data` is the queried
`(reservation_id, timestamp)` rows, `now_date` the current date and `query`,
`day_query`, `time_query` the output of `split_datetime_query`. -/
def autocomplete_reservations (now_date : Int) (data : List (Int × DateTimeET))
    (query day_query time_query : String) : List (Int × List DateTimeET) :=
  (((groupByRid data).filter (fun g =>
      (g.2.any (fun t =>
          (day_aliases now_date t.day).any (fun n => strStartsWith n day_query)) &&
        g.2.any (fun t =>
          (time_aliases t.hour t.minute).any (fun n => strStartsWith n time_query)))
      || strStartsWith (toString g.1) query)).take 25)


/-- Embeds `AllMaps` from `src/serveme.rs`: the official catalog (the ordered
keys of the official `BTreeMap`) and the unofficial maps fetched from the
booking service. -/
structure AllMaps where
  official : List GameMap
  unofficial : List GameMap


/-- Embeds `AllMaps::iter`: official maps first, then unofficial. -/
def AllMaps.iterAll (am : AllMaps) : List GameMap :=
  am.official ++ am.unofficial


/-- Embeds the recursive `inner` helper of
`AllMaps::official_autocomplete_choices`: one chosen map prepended to every
combination drawn from the remaining per-slot candidate lists. -/
def officialInner (m : GameMap) : List (List GameMap) → List (List GameMap)
  | c :: grandchildren =>
      c.flatMap (fun choice =>
        (officialInner choice grandchildren).map (fun choices => m :: choices))
  | [] => [[m]]


/-- The case-insensitive substring filter each typed slot applies to the
official catalog (`official_map.to_lowercase().contains(&map.to_lowercase())`). -/
def slotFilter (am : AllMaps) (slot : GameMap) : List GameMap :=
  am.official.filter (fun o => strContains (strToLower o) (strToLower slot))


/-- Embeds `AllMaps::official_autocomplete_choices` from `src/serveme.rs`. -/
def AllMaps.official_autocomplete_choices (am : AllMaps) (maps : List GameMap) :
    List (List GameMap) :=
  let per_map_choices := maps.map (slotFilter am)
  match per_map_choices with
  | choices :: children => choices.flatMap (fun c => officialInner c children)
  | [] => []


/-- Embeds `AllMaps::unofficial_autocomplete_choices` from `src/serveme.rs`;
the empty-list case is unreachable (the caller handles it), where the source
panics this returns no choices. -/
def AllMaps.unofficial_autocomplete_choices (am : AllMaps) (maps : List GameMap) :
    List (List GameMap) :=
  match maps.getLast? with
  | none => []
  | some last_map =>
      (am.unofficial.filter (fun u =>
          strContains (strToLower u) (strToLower last_map))).map
        (fun u => maps.dropLast ++ [u])


/-- Embeds `AllMaps::autocomplete_choices` from `src/serveme.rs`, at the level
of the map tuples offered (the conversion of each tuple to an
`AutocompleteChoice` label is rendering glue). -/
def AllMaps.autocomplete_choices (am : AllMaps) (maps : List GameMap)
    (trailing_sep : Bool) : List (List GameMap) :=
  if maps.isEmpty then
    (am.iterAll.map (fun m => [m])).take 25
  else
    let choices :=
      am.official_autocomplete_choices maps ++ am.unofficial_autocomplete_choices maps
    if trailing_sep then
      (choices.flatMap (fun ms => am.iterAll.map (fun m => ms ++ [m]))).take 25
    else
      choices.take 25


/-- Transcribes the claim's "cartesian product, preserving slot order, of the
per-slot candidate sets": every way of drawing one entry from each list, in
order. -/
def cartesianProduct : List (List α) → List (List α)
  | [] => [[]]
  | l :: ls => l.flatMap (fun x => (cartesianProduct ls).map (fun t => x :: t))


lemma try_from_eq_decodeSpec (m : Model) :
    (Game.try_from m : Except BotError (Game ScrimOrMatch)) = decodeSpec m := by
  obtain ⟨gid, ts, rid, ci, o, f, mp, rm⟩ := m
  rcases rid with _ | r <;> rcases ci with _ | c <;> rcases o with _ | o <;>
    rcases f with _ | f <;> rcases mp with _ | mp <;> rcases rm with _ | rm <;> rfl


/-- C1: decoding a persisted game row into a `Game` succeeds exactly when the
columns match one `ServerAssignment` shape (`reservation_id` xor
`connect_info`, or neither) and one `Details` shape ((opponent, format, maps)
all present with `rgl_match_id` absent, or the inverse), producing the variant
dictated by the present columns; every other combination — including both
`reservation_id` and `connect_info` present — fails with
`InvalidGameDetails`. -/
theorem c1_decode_shapes (m : Model) :
    (Game.try_from m : Except BotError (Game ScrimOrMatch)) = decodeSpec m :=
  try_from_eq_decodeSpec m


lemma try_from_toRow (g : Game ScrimOrMatch) (r : Model) :
    Game.try_from (g.into_active_model.toRow r) = .ok g := by
  obtain ⟨gid, ts, server, details⟩ := g
  rcases server with rid | ci | _ <;> rcases details with scrim | match_ <;> rfl


lemma toRow_of_try_from (m : Model) (g : Game ScrimOrMatch)
    (h : Game.try_from m = .ok g) (r : Model) : g.into_active_model.toRow r = m := by
  obtain ⟨gid, ts, rid, ci, o, f, mp, rm⟩ := m
  rw [try_from_eq_decodeSpec] at h
  rcases rid with _ | rv <;> rcases ci with _ | cv <;> rcases o with _ | ov <;>
    rcases f with _ | fv <;> rcases mp with _ | mv <;> rcases rm with _ | rv2 <;>
    first
      | exact Except.noConfusion h
      | (cases h; rfl)


/-- C2: decoding a row into a `Game` and re-encoding via `into_active_model`
round-trips in both directions: every `Game` (any `ServerAssignment` variant,
either `Details` variant) re-decodes to itself, and every successfully decoded
row is reproduced column-for-column by re-encoding the decoded `Game`. -/
theorem c2_roundtrip :
    (∀ (g : Game ScrimOrMatch) (r : Model),
        Game.try_from (g.into_active_model.toRow r) = .ok g) ∧
    (∀ (m : Model) (g : Game ScrimOrMatch) (r : Model),
        Game.try_from m = .ok g → g.into_active_model.toRow r = m) :=
  ⟨try_from_toRow, fun m g r h => toRow_of_try_from m g h r⟩


/-- C2 witness: a concrete hosted scrim row round-trips. -/
theorem c2_roundtrip_witness :
    Game.try_from
        { guild_id := 1, timestamp := 100, reservation_id := some 7,
          connect_info := none, opponent_user_id := some 3,
          game_format := some .Sixes, maps := some ["cp_process_f12"],
          rgl_match_id := none }
      = .ok (⟨1, 100, .Hosted 7, .Scrim ⟨3, .Sixes, ["cp_process_f12"]⟩⟩ :
          Game ScrimOrMatch) ∧
    (Game.into_active_model
        (⟨1, 100, .Hosted 7, .Scrim ⟨3, .Sixes, ["cp_process_f12"]⟩⟩ :
          Game ScrimOrMatch)).toRow
        { guild_id := 0, timestamp := 0, reservation_id := none,
          connect_info := none, opponent_user_id := none, game_format := none,
          maps := none, rgl_match_id := none }
      = { guild_id := 1, timestamp := 100, reservation_id := some 7,
          connect_info := none, opponent_user_id := some 3,
          game_format := some .Sixes, maps := some ["cp_process_f12"],
          rgl_match_id := none } := by
  refine ⟨by rfl, c2_roundtrip.2 _ _ _ (by rfl)⟩


/-- C3: the booking window used by both reservation create and edit is
`[timestamp − 15min, timestamp + duration + 15min]` with duration exactly
1 hour for a scrim and 2 hours for a match. -/
theorem c3_booking_window (g : Game ScrimOrMatch) :
    g.start_end_times =
      (g.timestamp - 900,
        g.timestamp +
          (match g.details with
            | .Scrim _ => 3600
            | .Match _ => 7200) + 900) ∧
    (∀ (rm : MapList) (rf : GameFormat) (srv : Server) (pw rc : String),
        (g.create_request rm rf srv pw rc).starts_at = g.start_end_times.1 ∧
        (g.create_request rm rf srv pw rc).ends_at = g.start_end_times.2) := by
  obtain ⟨gid, ts, server, details⟩ := g
  constructor
  · rcases details with s | mt <;> rfl
  · intro rm rf srv pw rc
    exact ⟨rfl, rfl⟩


/-- C4: for a hosted game, `edit_reservation` only grows the fetched window —
the effective new start is `min(existing, computed)` and the effective new end
is `max(existing, computed)` — and when the computed window lies strictly
inside the existing one the payload omits the map and config fields, no edit
request is sent, and the unmodified fetched reservation is returned. -/
theorem c4_window_growth (g : Game ScrimOrMatch) (rm : MapList)
    (rf : GameFormat) (fetched : ReservationResponse)
    (send : EditReservationRequest → ReservationResponse) (rid : Int)
    (h : g.server = .Hosted rid) :
    ((g.edit_request rm rf fetched).starts_at.getD fetched.starts_at =
        min fetched.starts_at g.start_end_times.1) ∧
    ((g.edit_request rm rf fetched).ends_at.getD fetched.ends_at =
        max fetched.ends_at g.start_end_times.2) ∧
    (fetched.starts_at < g.start_end_times.1 →
      g.start_end_times.2 < fetched.ends_at →
        (g.edit_request rm rf fetched).first_map = none ∧
        (g.edit_request rm rf fetched).server_config_id = none ∧
        g.edit_reservation rm rf fetched send = .ok fetched) := by
  refine ⟨?_, ?_, ?_⟩
  · rcases lt_or_le g.start_end_times.1 fetched.starts_at with hlt | hle
    · simp [Game.edit_request, hlt, min_eq_right hlt.le]
    · simp [Game.edit_request, not_lt.mpr hle, min_eq_left hle]
  · rcases lt_or_le fetched.ends_at g.start_end_times.2 with hlt | hle
    · simp [Game.edit_request, hlt, max_eq_right hlt.le]
    · simp [Game.edit_request, not_lt.mpr hle, max_eq_left hle]
  · intro hs he
    have h1 : ¬ g.start_end_times.1 ≤ fetched.starts_at := not_le.mpr hs
    have h2 : ¬ g.start_end_times.1 < fetched.starts_at := by
      exact not_lt.mpr (le_of_lt hs)
    have h3 : ¬ g.start_end_times.2 > fetched.ends_at := not_lt.mpr (le_of_lt he)
    have hreq : g.edit_request rm rf fetched = EditReservationRequest.default := by
      simp [Game.edit_request, h1, h2, h3, EditReservationRequest.default]
    refine ⟨by simp [hreq, EditReservationRequest.default], by
      simp [hreq, EditReservationRequest.default], ?_⟩
    simp [Game.edit_reservation, h, GameServer.reservation_id, hreq]


/-- C4 witness: a hosted scrim moved strictly inside its reservation window
leaves the reservation untouched. -/
theorem c4_window_growth_witness :
    ((⟨1, 10000, .Hosted 7, .Scrim ⟨3, .Sixes, []⟩⟩ :
        Game ScrimOrMatch).edit_reservation [] .Sixes ⟨7, 0, 20000⟩ (fun _ => ⟨7, 0, 0⟩))
      = .ok ⟨7, 0, 20000⟩ :=
  ((c4_window_growth ⟨1, 10000, .Hosted 7, .Scrim ⟨3, .Sixes, []⟩⟩ [] .Sixes
      ⟨7, 0, 20000⟩ (fun _ => ⟨7, 0, 0⟩) 7 rfl).2.2 (by decide) (by decide)).2.2


/-- C5: `create_reservation` selects from the returned servers one whose
address begins with a preferred region ("chi"/"ks"); if none qualifies it
fails with `NoServemeServers` (producing no updated game), and on success the
game's server assignment transitions to `Hosted` of the id of the newly
created reservation. -/
theorem c5_create_reservation (g : Game ScrimOrMatch) (rm : MapList)
    (rf : GameFormat) (servers : List Server) (pw rc : String)
    (create : CreateReservationRequest → ReservationResponse) :
    ((∀ s ∈ servers, serverPreferred s = false) →
        g.create_reservation rm rf servers pw rc create = .error .NoServemeServers) ∧
    (∀ srv, servers.find? serverPreferred = some srv →
        serverPreferred srv = true ∧
        (g.create_request rm rf srv pw rc).server_id = srv.id ∧
        g.create_reservation rm rf servers pw rc create =
          .ok ({ g with server := .Hosted (create (g.create_request rm rf srv pw rc)).id },
            create (g.create_request rm rf srv pw rc))) := by
  constructor
  · intro hnone
    have hfind : servers.find? serverPreferred = none := by
      rw [List.find?_eq_none]
      intro s hs
      simp [hnone s hs]
    simp [Game.create_reservation, hfind]
  · intro srv hfind
    refine ⟨List.find?_some hfind, rfl, ?_⟩
    simp [Game.create_reservation, hfind]


/-- C5 witness: with one non-preferred and one Chicago server, the Chicago
server is selected and the game becomes hosted on the new reservation. -/
theorem c5_create_reservation_witness :
    ((⟨1, 10000, .Undecided, .Scrim ⟨3, .Sixes, []⟩⟩ :
        Game ScrimOrMatch).create_reservation [] .Sixes
        [⟨5, "1.2.3.4", "nyc.example:27015"⟩, ⟨9, "4.3.2.1", "chi.example:27015"⟩]
        "pw" "rc" (fun _ => ⟨42, 0, 0⟩))
      = .ok (⟨1, 10000, .Hosted 42, .Scrim ⟨3, .Sixes, []⟩⟩, ⟨42, 0, 0⟩) :=
  ((c5_create_reservation ⟨1, 10000, .Undecided, .Scrim ⟨3, .Sixes, []⟩⟩ [] .Sixes
      [⟨5, "1.2.3.4", "nyc.example:27015"⟩, ⟨9, "4.3.2.1", "chi.example:27015"⟩]
      "pw" "rc" (fun _ => ⟨42, 0, 0⟩)).2
    ⟨9, "4.3.2.1", "chi.example:27015"⟩ (by decide)).2.2


/-- C6: `ensure_time_open` fails with `TimeSlotTaken` exactly when a game row
of the team exists at exactly that timestamp, succeeds otherwise, and in
either case performs no state change (the table it hands back is the one it
was given). -/
theorem c6_ensure_time_open (guild_id : Int) (db : List Model) (t : Int) :
    (ensure_time_open guild_id db t = .error .TimeSlotTaken ↔
      ∃ r ∈ db, r.guild_id = guild_id ∧ r.timestamp = t) ∧
    ((¬ ∃ r ∈ db, r.guild_id = guild_id ∧ r.timestamp = t) →
      ensure_time_open guild_id db t = .ok db) := by
  have hiff : (db.any (fun r => r.guild_id == guild_id && r.timestamp == t)) = true ↔
      ∃ r ∈ db, r.guild_id = guild_id ∧ r.timestamp = t := by
    simp [List.any_eq_true]
  by_cases hc : (db.any (fun r => r.guild_id == guild_id && r.timestamp == t)) = true
  · refine ⟨⟨fun _ => hiff.mp hc, fun _ => by simp [ensure_time_open, hc]⟩,
      fun hno => absurd (hiff.mp hc) hno⟩
  · have hc' : (db.any (fun r => r.guild_id == guild_id && r.timestamp == t)) = false :=
      Bool.eq_false_iff.mpr hc
    refine ⟨⟨fun h => ?_, fun hex => absurd (hiff.mpr hex) hc⟩,
      fun _ => by simp [ensure_time_open, hc']⟩
    exfalso
    simp [ensure_time_open, hc'] at h


/-- C6 witness: with one row at (1, 50), timestamp 50 is taken and timestamp
60 is open and leaves the table unchanged. -/
theorem c6_ensure_time_open_witness :
    ensure_time_open 1 [⟨1, 50, none, none, none, none, none, some 9⟩] 60 =
      .ok [⟨1, 50, none, none, none, none, none, some 9⟩] :=
  (c6_ensure_time_open 1 [⟨1, 50, none, none, none, none, none, some 9⟩] 60).2
    (by decide)


lemma into_cols_mutex (s : GameServer) :
    s.into_cols.1 = none ∨ s.into_cols.2 = none := by
  cases s <;> simp [GameServer.into_cols]


lemma applyServerEdit_mutex (row row' : Model) (e : ServerEdit)
    (h : applyServerEdit row e = .ok row') : mutexRow row' := by
  unfold applyServerEdit at h
  cases htf : (Game.try_from row : Except BotError (Game Scrim)) with
  | error err => rw [htf] at h; exact Except.noConfusion h
  | ok scrim =>
      rw [htf] at h
      cases e with
      | reservation r =>
          cases h
          rcases r with _ | rv
          · by_cases hh : scrim.server.is_hosted = true <;>
              rcases hsrv : scrim.server with rid | ci | _ <;>
              simp_all [mutexRow, EditReservationIdCommand.run,
                Game.into_active_model, GameActiveModel.reset,
                GameActiveModel.applyTo, GameServer.into_cols,
                ActiveValue.reset, ActiveValue.applied, GameServer.is_hosted]
          · simp [mutexRow, EditReservationIdCommand.run, Game.into_active_model,
              GameActiveModel.reset, GameActiveModel.applyTo,
              GameServer.into_cols, ActiveValue.reset, ActiveValue.applied]
      | connect c =>
          cases h
          rcases c with _ | cv
          · by_cases hh : scrim.server.is_joined = true <;>
              rcases hsrv : scrim.server with rid | ci | _ <;>
              simp_all [mutexRow, EditConnectInfoCommand.run,
                Game.into_active_model, GameActiveModel.reset,
                GameActiveModel.applyTo, GameServer.into_cols,
                ActiveValue.reset, ActiveValue.applied, GameServer.is_joined]
          · simp [mutexRow, EditConnectInfoCommand.run, Game.into_active_model,
              GameActiveModel.reset, GameActiveModel.applyTo,
              GameServer.into_cols, ActiveValue.reset, ActiveValue.applied]


lemma applyServerEdits_mutex (es : List ServerEdit) (row row' : Model)
    (hrow : mutexRow row) (h : applyServerEdits row es = .ok row') :
    mutexRow row' := by
  induction es generalizing row with
  | nil =>
      cases h
      exact hrow
  | cons e rest ih =>
      unfold applyServerEdits at h
      rw [List.foldlM_cons] at h
      cases hstep : applyServerEdit row e with
      | error err => rw [hstep] at h; exact Except.noConfusion h
      | ok mid =>
          rw [hstep] at h
          exact ih mid (applyServerEdit_mutex row mid e hstep) h


/-- C10: every reservation-id or connect-info edit marks both server columns
for update together; encoding any `GameServer` variant writes both columns
with at most one of them `Some`; hence any sequence of these edits, started
from a row satisfying the `ServerAssignment` mutual-exclusion invariant,
preserves it. -/
theorem c10_server_mutual_exclusion :
    (∀ (r : Option Int) (g : Game Scrim),
        (EditReservationIdCommand.run r g).reservation_id.isSet = true ∧
        (EditReservationIdCommand.run r g).connect_info.isSet = true) ∧
    (∀ (c : Option ConnectInfo) (g : Game Scrim),
        (EditConnectInfoCommand.run c g).reservation_id.isSet = true ∧
        (EditConnectInfoCommand.run c g).connect_info.isSet = true) ∧
    (∀ s : GameServer, s.into_cols.1 = none ∨ s.into_cols.2 = none) ∧
    (∀ (es : List ServerEdit) (row row' : Model),
        mutexRow row → applyServerEdits row es = .ok row' → mutexRow row') := by
  refine ⟨?_, ?_, into_cols_mutex, applyServerEdits_mutex⟩
  · intro r g
    exact ⟨rfl, rfl⟩
  · intro c g
    exact ⟨rfl, rfl⟩


/-- C10 witness: a valid undecided scrim row, edited to reservation 5 and then
to external connect info, still satisfies the mutual-exclusion invariant. -/
theorem c10_server_mutual_exclusion_witness :
    mutexRow
      ⟨1, 50, none, some ⟨"1.2.3.4:27015", "pw"⟩, some 3, some .Sixes,
        some [], none⟩ :=
  c10_server_mutual_exclusion.2.2.2
    [.reservation (some 5), .connect (some ⟨"1.2.3.4:27015", "pw"⟩)]
    ⟨1, 50, none, none, some 3, some .Sixes, some [], none⟩
    ⟨1, 50, none, some ⟨"1.2.3.4:27015", "pw"⟩, some 3, some .Sixes,
      some [], none⟩
    (Or.inl rfl) (by rfl)


/-- C8: the alias set of the current date is its lowercase weekday name plus
"today" and "tdy"; of the following date, its weekday name plus "tomorrow"
and "tmrw"; of any other date, the weekday name alone — so under prefix
matching any other date matches a day token exactly when its weekday name
does. -/
theorem c8_day_aliases (now d : Int) :
    day_aliases now now = [(weekdayOf now).name, "today", "tdy"] ∧
    day_aliases now (now + 1) = [(weekdayOf (now + 1)).name, "tomorrow", "tmrw"] ∧
    (d ≠ now → d ≠ now + 1 →
      day_aliases now d = [(weekdayOf d).name] ∧
      ∀ tok, (day_aliases now d).any (fun a => strStartsWith a tok) =
        strStartsWith (weekdayOf d).name tok) := by
  refine ⟨?_, ?_, ?_⟩
  · have h1 : (now == now) = true := beq_self_eq_true now
    have h2 : (now == now + 1) = false := by
      rw [beq_eq_false_iff_ne]
      omega
    simp [day_aliases, h1, h2]
  · have h1 : (now + 1 == now) = false := by
      rw [beq_eq_false_iff_ne]
      omega
    have h2 : (now + 1 == now + 1) = true := beq_self_eq_true _
    simp [day_aliases, h1, h2]
  · intro hne1 hne2
    have h1 : (d == now) = false := beq_eq_false_iff_ne.mpr hne1
    have h2 : (d == now + 1) = false := beq_eq_false_iff_ne.mpr hne2
    refine ⟨by simp [day_aliases, h1, h2], fun tok => by simp [day_aliases, h1, h2]⟩


/-- C8 witness: with today = day 0 (a Thursday), day 3 (a Sunday) carries
only its weekday name, and "today"/"tomorrow" single out days 0 and 1. -/
theorem c8_day_aliases_witness :
    day_aliases 0 3 = ["sunday"] :=
  ((c8_day_aliases 0 3).2.2 (by decide) (by decide)).1


/-- C9 counterexample to the claim as stated: with today = day 0, rows of
reservation 42 on Monday 8:00 PM (day 4) and Tuesday 9:00 PM (day 5), and the
query "mon 9" (day token "mon", time token "9"), the group is offered even
though no single member's day/time matches both tokens and the id string does
not start with the query — the code tests the day and time tokens against
possibly different members. -/
theorem c9_counterexample :
    autocomplete_reservations 0 [(42, ⟨4, 20, 0⟩), (42, ⟨5, 21, 0⟩)]
        "mon 9" "mon" "9" = [(42, [⟨4, 20, 0⟩, ⟨5, 21, 0⟩])] ∧
    (¬ ∃ t ∈ [(⟨4, 20, 0⟩ : DateTimeET), ⟨5, 21, 0⟩],
        ((day_aliases 0 t.day).any (fun n => strStartsWith n "mon") = true ∧
          (time_aliases t.hour t.minute).any (fun n => strStartsWith n "9") = true)) ∧
    strStartsWith (toString (42 : Int)) "mon 9" = false := by
  refine ⟨by decide, by decide, by decide⟩


/-- C9 (amended): a team's games are grouped by reservation id; a group is
offered if and only if some member's day matches the day token and some —
possibly different — member's time matches the time token, or the reservation
id's decimal string starts with the raw query; offered groups are capped
at 25. -/
theorem c9_reservation_disambiguation (now_date : Int)
    (data : List (Int × DateTimeET)) (query day_query time_query : String) :
    autocomplete_reservations now_date data query day_query time_query =
      ((groupByRid data).filter (fun g =>
        decide
          (((∃ t ∈ g.2, (day_aliases now_date t.day).any
                (fun n => strStartsWith n day_query) = true) ∧
            (∃ t ∈ g.2, (time_aliases t.hour t.minute).any
                (fun n => strStartsWith n time_query) = true)) ∨
            strStartsWith (toString g.1) query = true))).take 25 ∧
    (autocomplete_reservations now_date data query day_query time_query).length ≤ 25 := by
  constructor
  · unfold autocomplete_reservations
    congr 1
    apply List.filter_congr
    intro g _
    rw [Bool.eq_iff_iff]
    simp [List.any_eq_true]
  · exact List.length_take_le _ _


/-- C9 witness (amended): the counterexample's group is offered because one
member matches the day token and another matches the time token. -/
theorem c9_reservation_disambiguation_witness :
    autocomplete_reservations 0 [(42, ⟨4, 20, 0⟩), (42, ⟨5, 21, 0⟩)]
        "mon 9" "mon" "9" =
      ((groupByRid [(42, ⟨4, 20, 0⟩), (42, ⟨5, 21, 0⟩)]).filter (fun g =>
        decide
          (((∃ t ∈ g.2, (day_aliases 0 t.day).any
                (fun n => strStartsWith n "mon") = true) ∧
            (∃ t ∈ g.2, (time_aliases t.hour t.minute).any
                (fun n => strStartsWith n "9") = true)) ∨
            strStartsWith (toString g.1) "mon 9" = true))).take 25 :=
  (c9_reservation_disambiguation 0 [(42, ⟨4, 20, 0⟩), (42, ⟨5, 21, 0⟩)]
    "mon 9" "mon" "9").1


lemma officialInner_eq_cartesianProduct (ls : List (List GameMap)) (m : GameMap) :
    officialInner m ls = (cartesianProduct ls).map (fun t => m :: t) := by
  induction ls generalizing m with
  | nil => rfl
  | cons l rest ih =>
      simp only [officialInner, cartesianProduct, List.map_flatMap, List.map_map]
      apply List.flatMap_congr  -- pointwise rewrite of the inner choice
      intro c _
      rw [ih c, List.map_map]


lemma official_choices_eq_cartesianProduct (am : AllMaps) (first : GameMap)
    (rest : List GameMap) :
    am.official_autocomplete_choices (first :: rest) =
      cartesianProduct ((first :: rest).map (slotFilter am)) := by
  simp only [AllMaps.official_autocomplete_choices, List.map_cons, cartesianProduct]
  apply List.flatMap_congr
  intro c _
  exact officialInner_eq_cartesianProduct _ c


/-- C7: for a non-empty typed map list with no trailing separator, the offered
completions are exactly the slot-order cartesian product of the per-slot
candidate sets (each slot independently filtering the official catalog by its
case-insensitive substring), followed by the non-official completions that
filter only the last slot and pass the preceding slots through unfiltered,
truncated to at most 25 entries. -/
theorem c7_map_autocomplete (am : AllMaps) (first : GameMap)
    (rest : List GameMap) :
    am.autocomplete_choices (first :: rest) false =
      (cartesianProduct ((first :: rest).map (slotFilter am)) ++
        (am.unofficial.filter (fun u =>
            strContains (strToLower u)
              (strToLower ((first :: rest).getLast (List.cons_ne_nil first rest))))).map
          (fun u => (first :: rest).dropLast ++ [u])).take 25 ∧
    (am.autocomplete_choices (first :: rest) false).length ≤ 25 := by
  constructor
  · show (am.official_autocomplete_choices (first :: rest) ++
        am.unofficial_autocomplete_choices (first :: rest)).take 25 = _
    rw [official_choices_eq_cartesianProduct,
      AllMaps.unofficial_autocomplete_choices,
      List.getLast?_eq_getLast (first :: rest) (List.cons_ne_nil first rest)]
  · exact List.length_take_le _ _

end SchedTF
